import Mathlib

/-!
# Verification of the Telegram deal-forwarding bot (`src/bot.py`)

Shallow embedding of the message-processing pipeline:
parse → dedupe → link-transform → format → publish.

External effects (the processed-ids file, the affiliate HTTP endpoint, the
outbound Telegram send) are modelled as explicit state (`IdFile`) and
oracles (`Env`); each `process_message` invocation additionally yields a
trace of `Event`s recording the side effects it performed.

The parser is a faithful transcription of the Python regex
`message_regex` (compiled with `re.DOTALL | re.IGNORECASE` and run with
`.search`): each alternative/quantifier is realised as an explicit
backtracking combinator with Python's priority order (lazy quantifiers try
the shortest extension first, greedy ones the longest, a match as early in
the string as possible wins).  The literals of the pattern are the exact
characters of the source file, which are the cp1252 mojibake of the emoji
(e.g. the product marker is the four characters U+00F0 U+0178 U+201C U+00A6,
the bytes of 📦 read back in cp1252), the mojibake of the rupee sign
(U+00E2 U+201A U+00B9) and of the arrow (U+00E2 U+2020 U+2019).
-/

namespace Bot

/-- Python's `\s` character class for `str` patterns (Unicode whitespace),
also used for `str.strip()`. -/
def pyIsSpace (c : Char) : Bool :=
  let n := c.toNat
  n == 32 || n == 9 || n == 10 || n == 13 || n == 11 || n == 12 ||
  n == 0x1c || n == 0x1d || n == 0x1e || n == 0x1f || n == 0x85 || n == 0xa0 ||
  n == 0x1680 || (0x2000 ≤ n && n ≤ 0x200a) || n == 0x2028 || n == 0x2029 ||
  n == 0x202f || n == 0x205f || n == 0x3000

/-- Python `str.strip()`: drop leading and trailing whitespace. -/
def pyStrip (l : List Char) : List Char :=
  ((l.dropWhile pyIsSpace).reverse.dropWhile pyIsSpace).reverse

/-- Python `str.strip()` on `String`s. -/
def pyStripStr (s : String) : String :=
  String.mk (pyStrip s.data)

/-- Case folding for `re.IGNORECASE`: ASCII letters, plus the cased
non-ASCII characters that occur in `message_regex` (the mojibake bytes
ð/U+00F0 ↔ Ð/U+00D0, Ÿ/U+0178 ↔ ÿ/U+00FF, â/U+00E2 ↔ Â/U+00C2). -/
def foldCase (c : Char) : Char :=
  if 'A' ≤ c ∧ c ≤ 'Z' then Char.ofNat (c.toNat + 32)
  else if c = 'Ð' then 'ð'
  else if c = 'Â' then 'â'
  else if c = 'Ÿ' then 'ÿ'
  else c

/-- Match a literal pattern (case-insensitively) at the head of the input;
returns the rest of the input on success. -/
def stripLit : List Char → List Char → Option (List Char)
  | [], s => some s
  | _ :: _, [] => none
  | p :: ps, c :: cs => if foldCase p = foldCase c then stripLit ps cs else none

/-- The captures of `message_regex`'s four named groups, as raw
(unstripped) character lists. -/
structure RegexMatch where
  product_name : List Char
  before_price : List Char
  after_price : List Char
  link : List Char
deriving DecidableEq, Repr

/-- Literal `ðŸ“¦` — the source file's product marker (mojibake of 📦). -/
def prodMark : List Char := ['ð', 'Ÿ', '“', '¦']

/-- Literal `ðŸ’¡` — the source file's detail marker (mojibake of 💡). -/
def bulbMark : List Char := ['ð', 'Ÿ', '’', '¡']

/-- Literal `ðŸ’°` — the source file's price marker (mojibake of 💰). -/
def moneyMark : List Char := ['ð', 'Ÿ', '’', '°']

/-- Literal `ðŸ”—` — the source file's link marker (mojibake of 🔗), used in the
outbound template. -/
def chainMark : List Char := ['ð', 'Ÿ', '”', '—']

/-- Literal `â‚¹` — the source file's currency sign (mojibake of ₹). -/
def rupeeLit : List Char := ['â', '‚', '¹']

/-- Literal `â†’` — the source file's arrow (mojibake of →). -/
def arrowLit : List Char := ['â', '†', '’']

/-- A continuation of the backtracking matcher: consumes a remaining input
and either completes a match or fails. -/
abbrev Cont := List Char → Option RegexMatch

/-- Element `\s*` (greedy): consume as much whitespace as possible, backtracking
one character at a time into the continuation. `tryDropsUp n k s` tries
`k (s.drop n)`, then `k (s.drop (n-1))`, …, then `k s`. -/
def tryDropsUp : Nat → Cont → List Char → Option RegexMatch
  | 0, k, s => k s
  | n + 1, k, s =>
    match k (s.drop (n + 1)) with
    | some r => some r
    | none => tryDropsUp n k s

/-- Element `\s*` (greedy with backtracking). -/
def wsGreedy (k : Cont) : Cont := fun s =>
  tryDropsUp ((s.takeWhile pyIsSpace).length) k s

/-- A greedy one-or-more character-class quantifier (`[\d,]+`, `\S+`):
`greedyTry p k s i` tries capture lengths `i, i-1, …, 1` in that order. -/
def greedyTry (k : List Char → Cont) (s : List Char) : Nat → Option RegexMatch
  | 0 => none
  | i + 1 =>
    match k (s.take (i + 1)) (s.drop (i + 1)) with
    | some r => some r
    | none => greedyTry k s i

/-- A greedy `+` over a character class, longest capture first. -/
def greedyClassPlus (p : Char → Bool) (k : List Char → Cont) : Cont := fun s =>
  greedyTry k s ((s.takeWhile p).length)

/-- Element `.*?k` (lazy star, `re.DOTALL` so `.` also matches newlines): the
earliest position at which the continuation succeeds wins. -/
def lazyStarK (k : Cont) : List Char → Option RegexMatch
  | [] => k []
  | c :: cs =>
    match k (c :: cs) with
    | some r => some r
    | none => lazyStarK k cs

/-- Class `[\d,]` — Python `\d` restricted to ASCII digits (no claim involves
non-ASCII digits). -/
def isPriceChar (c : Char) : Bool := c.isDigit || c == ','

/-- Class `\S` — the complement of `\s`. -/
def isNonSpace (c : Char) : Bool := !(pyIsSpace c)

/-- Tail of the link group after the optional `s`: `://\S+` and the end of
the pattern.  `s0` is the input at the start of the capture group, `k` the
number of characters (`4` or `5`) already consumed from it by `https?`;
the capture is the whole matched substring of the input. -/
def stageUrlSlashes (n b a : List Char) (s0 : List Char) (k : Nat) (s : List Char) :
    Option RegexMatch :=
  match stripLit "://".data s with
  | none => none
  | some s1 =>
    let run := s1.takeWhile isNonSpace
    if run.length = 0 then none
    else some ⟨n, b, a, s0.take (k + 3 + run.length)⟩

/-- Group `(?P<link>https?://\S+)`: the optional `s` is greedy, so the branch
that consumes it is tried first. -/
def stageUrl (n b a : List Char) : Cont := fun s =>
  match stripLit "http".data s with
  | none => none
  | some s1 =>
    (match stripLit ['s'] s1 with
     | some s2 => stageUrlSlashes n b a s 5 s2
     | none => none) <|>
    stageUrlSlashes n b a s 4 s1

/-- Element `Link:\s*(?P<link>…)`. -/
def stageLinkAt (n b a : List Char) : Cont := fun s =>
  match stripLit "Link:".data s with
  | none => none
  | some s1 => wsGreedy (stageUrl n b a) s1

/-- Element `.*?Link:\s*(?P<link>…)`. -/
def stageFindLink (n b a : List Char) : Cont :=
  lazyStarK (stageLinkAt n b a)

/-- Elements `\s*â†’\s*â‚¹(?P<after_price>[\d,]+)` and the rest. -/
def stageArrow (n b : List Char) : Cont := fun s =>
  wsGreedy (fun s1 =>
    match stripLit arrowLit s1 with
    | none => none
    | some s2 =>
      wsGreedy (fun s3 =>
        match stripLit rupeeLit s3 with
        | none => none
        | some s4 => greedyClassPlus isPriceChar (fun a => stageFindLink n b a) s4) s2) s

/-- Elements `ðŸ’°\s*Price:\s*â‚¹(?P<before_price>[\d,]+)` and the rest. -/
def stagePriceAt (n : List Char) : Cont := fun s =>
  match stripLit moneyMark s with
  | none => none
  | some s1 =>
    wsGreedy (fun s2 =>
      match stripLit "Price:".data s2 with
      | none => none
      | some s3 =>
        wsGreedy (fun s4 =>
          match stripLit rupeeLit s4 with
          | none => none
          | some s5 => greedyClassPlus isPriceChar (fun b => stageArrow n b) s5) s3) s1

/-- Elements `.*?ðŸ’°\s*Price:…` -/
def stageFindPrice (n : List Char) : Cont :=
  lazyStarK (stagePriceAt n)

/-- Elements `\s*(?:\nðŸ’¡|\nðŸ’°)` after the product-name group; the alternation
backtracks into the whole continuation. -/
def stageAfterName (n : List Char) : Cont := fun s =>
  wsGreedy (fun s1 =>
    (match stripLit ('\n' :: bulbMark) s1 with
     | some s2 => stageFindPrice n s2
     | none => none) <|>
    (match stripLit ('\n' :: moneyMark) s1 with
     | some s2 => stageFindPrice n s2
     | none => none)) s

/-- Group `(?P<product_name>.+?)` (lazy, `.` matches newlines under `re.DOTALL`):
extend the capture one character at a time, shortest first.  `accRev` is
the reversed capture accumulated so far. -/
def lazyNameGo (accRev : List Char) : List Char → Option RegexMatch
  | [] =>
    match stageAfterName accRev.reverse [] with
    | some r => some r
    | none => none
  | c :: cs =>
    match stageAfterName accRev.reverse (c :: cs) with
    | some r => some r
    | none => lazyNameGo (c :: accRev) cs

/-- Group `(?P<product_name>.+?)` and the rest (at least one character). -/
def stageName : Cont := fun s =>
  match s with
  | [] => none
  | c :: cs => lazyNameGo [c] cs

/-- The full pattern anchored at the current position:
`ðŸ“¦\s*Product:\s*` then the rest. -/
def matchHere : Cont := fun s =>
  match stripLit prodMark s with
  | none => none
  | some s1 =>
    wsGreedy (fun s2 =>
      match stripLit "Product:".data s2 with
      | none => none
      | some s3 => wsGreedy stageName s3) s1

/-- Function `message_regex.search`: try the pattern at every start position, left
to right (the leftmost match wins). -/
def message_regex_search : List Char → Option RegexMatch
  | [] => matchHere []
  | c :: cs =>
    match matchHere (c :: cs) with
    | some r => some r
    | none => message_regex_search cs

/-- The structured result of a successful parse (spec §3 ParsedDeal);
fields are the captures of `message_regex` after `.strip()`
(`src/bot.py:94-97`). -/
structure ParsedDeal where
  productName : String
  priceBefore : String
  priceAfter : String
  originalLink : String
deriving DecidableEq, Repr

/-- The parsing step of `process_message` (`src/bot.py:88-97`): run
`message_regex.search` and strip each captured group; `none` is the
NoMatch outcome. -/
def parse (text : String) : Option ParsedDeal :=
  match message_regex_search text.data with
  | none => none
  | some m =>
    some ⟨String.mk (pyStrip m.product_name), String.mk (pyStrip m.before_price),
          String.mk (pyStrip m.after_price), String.mk (pyStrip m.link)⟩

/-- The outcome of the single HTTP POST to the affiliate endpoint
(`requests.post`, `src/bot.py:60`): either a transport-level failure
(timeout, connection error, malformed body — every
`requests.RequestException`) or a response with a status code and a JSON
object body, modelled as an association list. -/
inductive HttpOutcome where
  | transportError
  | response (status : Nat) (body : List (String × String))
deriving DecidableEq, Repr

/-- Function `get_affiliate_link` (`src/bot.py:48-73`).  `endpoint` is
`AFFILIATE_API_ENDPOINT` (`None` when unset), `http` the external HTTP
service.  `response.raise_for_status()` raises exactly for status codes
400–599; the raised `HTTPError` is a `RequestException`, caught at
`src/bot.py:71`, as are transport failures. -/
def get_affiliate_link (endpoint : Option String) (http : String → HttpOutcome)
    (original_link : String) : String :=
  match endpoint with
  | none => original_link
  | some _ =>
    match http original_link with
    | .transportError => original_link
    | .response status data =>
      if 400 ≤ status ∧ status < 600 then original_link
      else
        match data.lookup "affiliate_link" with
        | some aff => aff
        | none => original_link

/-- The state of `processed_message_ids.txt`: `none` when the file does
not exist, otherwise its lines (without the terminating newlines). -/
abbrev IdFile := Option (List String)

/-- Function `load_processed_ids` (`src/bot.py:35-41`): the set
`{line.strip() | line ∈ file}`, or empty when the file is missing
(`FileNotFoundError`). -/
def load_processed_ids (f : IdFile) : List String :=
  match f with
  | none => []
  | some lines => lines.map pyStripStr

/-- Function `save_processed_id` (`src/bot.py:43-46`): append `str(message_id)` and
a newline to the file, creating it when absent (mode `'a'`). -/
def save_processed_id (f : IdFile) (message_id : String) : IdFile :=
  some ((f.getD []) ++ [message_id])

/-- An inbound Telegram message as used by the pipeline: `message_id` is a
Telegram integer id (the code always works with `str(message.message_id)`),
`text` is `None` for non-text messages, `chat_id` the originating chat. -/
structure Message where
  message_id : Nat
  text : Option String
  chat_id : Int
deriving DecidableEq, Repr

/-- The external world of one run: the affiliate endpoint configuration and
HTTP service, whether the outbound `bot.send_message` for a given message
succeeds or raises `TelegramError`, and the configured chat ids. -/
structure Env where
  endpoint : Option String
  http : String → HttpOutcome
  sendOk : Message → Bool
  source : String
  target : String

/-- The observable side effects of the pipeline, in order of occurrence:
a read of the processed-ids file, an HTTP POST to the affiliate endpoint,
an outbound send attempt (with the candidate's id, the formatted text and
whether delivery succeeded) and an append to the processed-ids file. -/
inductive Event where
  | storeRead
  | affiliateCall (url : String)
  | sendAttempt (message_id : String) (text : String) (ok : Bool)
  | storeWrite (message_id : String)
deriving DecidableEq, Repr

/-- The `final_message` template (`src/bot.py:105-109`): the interpolated
values are inserted verbatim, with no Markdown escaping. -/
def final_message (product_name before_price after_price affiliate_link : String) :
    String :=
  String.mk (prodMark ++ " **Product:** ".data ++ product_name.data ++ "\n".data
    ++ moneyMark ++ " **Price:** ".data ++ rupeeLit ++ before_price.data
    ++ " ".data ++ arrowLit ++ " ".data ++ rupeeLit ++ after_price.data ++ "\n".data
    ++ chainMark ++ " **Affiliate Link:** [Buy Now](".data ++ affiliate_link.data
    ++ ")".data)

/-- Function `process_message` (`src/bot.py:75-122`) as a state transformer on the
processed-ids file, also yielding its trace of side effects.  Branches, in
source order: empty/absent text returns before anything else; then the
store is (re-)read and an already-processed id is skipped; then a regex
mismatch is skipped; otherwise resolve the link (the HTTP POST happens
only when the endpoint is configured), format, send, and append the id to
the store only after the send returned without `TelegramError`. -/
def process_message (env : Env) (f : IdFile) (m : Message) : IdFile × List Event :=
  let message_id := toString m.message_id
  match m.text with
  | none => (f, [])
  | some message_text =>
    if message_text = "" then (f, [])
    else
      let processed_ids := load_processed_ids f
      if message_id ∈ processed_ids then (f, [.storeRead])
      else
        match parse message_text with
        | none => (f, [.storeRead])
        | some deal =>
          let affiliate_link := get_affiliate_link env.endpoint env.http deal.originalLink
          let text := final_message deal.productName deal.priceBefore
            deal.priceAfter affiliate_link
          let affEv : List Event :=
            if env.endpoint.isSome then [.affiliateCall deal.originalLink] else []
          if env.sendOk m then
            (save_processed_id f message_id,
             [Event.storeRead] ++ affEv
               ++ [.sendAttempt message_id text true, .storeWrite message_id])
          else
            (f, [Event.storeRead] ++ affEv ++ [.sendAttempt message_id text false])

/-- The candidate loop of `main` (`src/bot.py:156-159`): each update's
`channel_post or message` (collapsed here into an `Option Message`), kept
when `str(message.chat_id) == str(SOURCE_CHAT_ID)`, is processed in order,
threading the file state and concatenating the traces. -/
def runUpdates (env : Env) : IdFile → List (Option Message) → IdFile × List Event
  | f, [] => (f, [])
  | f, none :: rest => runUpdates env f rest
  | f, some m :: rest =>
    if toString m.chat_id = env.source then
      let r := process_message env f m
      let rest' := runUpdates env r.1 rest
      (rest'.1, r.2 ++ rest'.2)
    else
      runUpdates env f rest

/-- Is an event an outbound send attempt? -/
def isSendEvent : Event → Bool
  | .sendAttempt _ _ _ => true
  | _ => false

/-- Is an event an append to the processed-ids file? -/
def isWriteEvent : Event → Bool
  | .storeWrite _ => true
  | _ => false

/-- Number of successful outbound deliveries for a given id in a trace. -/
def sendSuccessCount (evs : List Event) (mid : String) : Nat :=
  evs.countP fun e =>
    match e with
    | .sendAttempt m _ ok => m == mid && ok
    | _ => false

/-- Checks that every `storeWrite id` in a trace is preceded by a
successful `sendAttempt` for the same id; `sent` accumulates the ids
already delivered. -/
def wellOrdered (sent : List String) : List Event → Bool
  | [] => true
  | .storeWrite id :: rest => sent.contains id && wellOrdered sent rest
  | .sendAttempt id _ true :: rest => wellOrdered (id :: sent) rest
  | _ :: rest => wellOrdered sent rest

/-- The ids whose delivery succeeded in a trace, newest first, extending
`sent`. -/
def sentAfter (sent : List String) : List Event → List String
  | [] => sent
  | .sendAttempt id _ true :: rest => sentAfter (id :: sent) rest
  | _ :: rest => sentAfter sent rest

/-! ## Supporting lemmas -/

lemma digitChar_not_space {m : Nat} (h : m < 10) :
    pyIsSpace (Nat.digitChar m) = false := by
  interval_cases m <;> decide

lemma toDigitsCore_not_space :
    ∀ (fuel n : Nat) (ds : List Char), (∀ c ∈ ds, pyIsSpace c = false) →
      ∀ c ∈ Nat.toDigitsCore 10 fuel n ds, pyIsSpace c = false := by
  intro fuel
  induction fuel with
  | zero => intro n ds h; simpa [Nat.toDigitsCore] using h
  | succ fuel ih =>
    intro n ds h c hc
    rw [Nat.toDigitsCore] at hc
    by_cases hnz : n / 10 = 0
    · simp only [hnz, if_pos] at hc
      rcases List.mem_cons.mp hc with rfl | hmem
      · exact digitChar_not_space (Nat.mod_lt n (by norm_num))
      · exact h c hmem
    · simp only [hnz, if_neg, not_false_iff] at hc
      refine ih (n / 10) (Nat.digitChar (n % 10) :: ds) ?_ c hc
      intro d hd
      rcases List.mem_cons.mp hd with rfl | hmem
      · exact digitChar_not_space (Nat.mod_lt n (by norm_num))
      · exact h d hmem

lemma toDigitsCore_length :
    ∀ (fuel n : Nat) (ds : List Char),
      ds.length ≤ (Nat.toDigitsCore 10 fuel n ds).length := by
  intro fuel
  induction fuel with
  | zero => intro n ds; simp [Nat.toDigitsCore]
  | succ fuel ih =>
    intro n ds
    rw [Nat.toDigitsCore]
    by_cases hnz : n / 10 = 0
    · simp [hnz]
    · simp only [hnz, if_neg, not_false_iff]
      calc ds.length ≤ (Nat.digitChar (n % 10) :: ds).length := by simp
        _ ≤ _ := ih (n / 10) (Nat.digitChar (n % 10) :: ds)

lemma natToString_data (n : Nat) : (toString n).data = Nat.toDigits 10 n := rfl

lemma natToString_no_space (n : Nat) :
    ∀ c ∈ (toString n).data, pyIsSpace c = false := by
  rw [natToString_data]
  exact toDigitsCore_not_space (n + 1) n [] (by simp)

lemma natToString_data_ne_nil (n : Nat) : (toString n).data ≠ [] := by
  rw [natToString_data]
  unfold Nat.toDigits
  intro hcon
  have := toDigitsCore_length (n + 1) n []
  rw [Nat.toDigitsCore] at hcon this
  by_cases hnz : n / 10 = 0
  · simp [hnz] at hcon
  · simp only [hnz, if_neg, not_false_iff] at hcon this
    have h1 := toDigitsCore_length n (n / 10) (Nat.digitChar (n % 10) :: [])
    rw [hcon] at h1
    simp at h1

lemma dropWhile_of_head_false {p : Char → Bool} :
    ∀ (l : List Char), (∀ c ∈ l, p c = false) → l.dropWhile p = l := by
  intro l h
  cases l with
  | nil => rfl
  | cons a t => simp [List.dropWhile_cons, h a (by simp)]

lemma pyStrip_eq_self {l : List Char} (h : ∀ c ∈ l, pyIsSpace c = false) :
    pyStrip l = l := by
  unfold pyStrip
  rw [dropWhile_of_head_false l h,
    dropWhile_of_head_false l.reverse (fun c hc => h c (List.mem_reverse.mp hc)),
    List.reverse_reverse]

lemma pyStripStr_natToString (n : Nat) :
    pyStripStr (toString n) = toString n := by
  unfold pyStripStr
  rw [pyStrip_eq_self (natToString_no_space n)]

/-- An id just saved is seen by the next `load_processed_ids` (numeric ids
survive the `strip()` applied on load). -/
lemma mem_load_save (f : IdFile) (n : Nat) :
    toString n ∈ load_processed_ids (save_processed_id f (toString n)) := by
  unfold load_processed_ids save_processed_id
  refine List.mem_map.mpr ⟨toString n, by simp, pyStripStr_natToString n⟩

/-- Appending via `save_processed_id` never removes an id from view. -/
lemma load_mono_save (f : IdFile) (x : String) :
    load_processed_ids f ⊆ load_processed_ids (save_processed_id f x) := by
  intro a ha
  cases f with
  | none => simp [load_processed_ids] at ha
  | some lines =>
    simp only [load_processed_ids, save_processed_id, Option.getD] at *
    rw [List.map_append]
    exact List.mem_append_left _ ha

/-- Case analysis of `process_message`: it either skips (empty text), skips
after the store read (duplicate id or regex mismatch), or reaches the
publish step — appending the id to the store exactly when the send
succeeded. -/
lemma process_message_shape (env : Env) (f : IdFile) (m : Message) :
    process_message env f m = (f, [])
    ∨ process_message env f m = (f, [.storeRead])
    ∨ (∃ text affEv,
        (affEv = [] ∨ ∃ url, affEv = [Event.affiliateCall url]) ∧
        toString m.message_id ∉ load_processed_ids f ∧
        ((env.sendOk m = true ∧
          process_message env f m =
            (save_processed_id f (toString m.message_id),
             [Event.storeRead] ++ affEv
               ++ [Event.sendAttempt (toString m.message_id) text true,
                   Event.storeWrite (toString m.message_id)]))
         ∨ (env.sendOk m = false ∧
            process_message env f m =
              (f, [Event.storeRead] ++ affEv
                ++ [Event.sendAttempt (toString m.message_id) text false])))) := by
  unfold process_message
  cases htext : m.text with
  | none => exact Or.inl rfl
  | some t =>
    dsimp only
    by_cases ht : t = ""
    · simp [ht]
    · rw [if_neg ht]
      by_cases hmem : toString m.message_id ∈ load_processed_ids f
      · simp [hmem]
      · rw [if_neg hmem]
        cases hp : parse t with
        | none => simp
        | some deal =>
          refine Or.inr (Or.inr ?_)
          refine ⟨final_message deal.productName deal.priceBefore deal.priceAfter
            (get_affiliate_link env.endpoint env.http deal.originalLink),
            if env.endpoint.isSome then [.affiliateCall deal.originalLink] else [],
            ?_, hmem, ?_⟩
          · cases env.endpoint <;> simp
          · cases hs : env.sendOk m
            · exact Or.inr ⟨rfl, by simp [hs]⟩
            · exact Or.inl ⟨rfl, by simp [hs]⟩

/-- Empty or absent text returns before any side effect
(`src/bot.py:80-81` precedes the store read at line 83). -/
lemma process_message_empty_text (env : Env) (f : IdFile) (m : Message)
    (h : m.text = none ∨ m.text = some "") :
    process_message env f m = (f, []) := by
  unfold process_message
  rcases h with h | h <;> simp [h]

/-- A failed send leaves the store exactly as it was and writes nothing. -/
lemma process_message_send_fail (env : Env) (f : IdFile) (m : Message)
    (h : env.sendOk m = false) :
    (process_message env f m).1 = f ∧
    (process_message env f m).2.countP isWriteEvent = 0 := by
  rcases process_message_shape env f m with heq | heq | ⟨text, affEv, haff, -, hcase⟩
  · rw [heq]; exact ⟨rfl, rfl⟩
  · rw [heq]; exact ⟨rfl, rfl⟩
  · rcases hcase with ⟨hok, _⟩ | ⟨-, heq⟩
    · rw [h] at hok; cases hok
    · rw [heq]
      refine ⟨rfl, ?_⟩
      rcases haff with rfl | ⟨url, rfl⟩ <;> simp [isWriteEvent]

/-- The store only grows across one candidate. -/
lemma process_message_mono (env : Env) (f : IdFile) (m : Message) :
    load_processed_ids f ⊆ load_processed_ids (process_message env f m).1 := by
  rcases process_message_shape env f m with heq | heq | ⟨text, affEv, -, -, hcase⟩
  · rw [heq]; exact fun a ha => ha
  · rw [heq]; exact fun a ha => ha
  · rcases hcase with ⟨-, heq⟩ | ⟨-, heq⟩
    · rw [heq]; exact load_mono_save f _
    · rw [heq]; exact fun a ha => ha

/-- An id already visible in the store emits no send at all for it, and for
any other id this candidate's sends do not mention it. -/
lemma process_message_success_count (env : Env) (f : IdFile) (m : Message)
    (mid : String) (hmem : mid ∈ load_processed_ids f) :
    sendSuccessCount (process_message env f m).2 mid = 0 := by
  rcases process_message_shape env f m with heq | heq | ⟨text, affEv, haff, hnot, hcase⟩
  · rw [heq]; rfl
  · rw [heq]; rfl
  · have hne : (toString m.message_id == mid) = false := by
      rw [beq_eq_false_iff_ne]
      intro hcon
      exact hnot (hcon ▸ hmem)
    rcases hcase with ⟨-, heq⟩ | ⟨-, heq⟩ <;> rw [heq] <;>
      rcases haff with rfl | ⟨url, rfl⟩ <;>
      simp [sendSuccessCount, List.countP_cons, List.countP_append, hne]

/-- At most one send attempt is made per candidate. -/
lemma process_message_success_le_one (env : Env) (f : IdFile) (m : Message)
    (mid : String) :
    sendSuccessCount (process_message env f m).2 mid ≤ 1 := by
  rcases process_message_shape env f m with heq | heq | ⟨text, affEv, haff, -, hcase⟩
  · rw [heq]; simp [sendSuccessCount]
  · rw [heq]; simp [sendSuccessCount, List.countP_cons]
  · rcases hcase with ⟨-, heq⟩ | ⟨-, heq⟩ <;> rw [heq] <;>
      rcases haff with rfl | ⟨url, rfl⟩ <;>
      simp [sendSuccessCount, List.countP_cons, List.countP_append] <;>
      split <;> simp

/-- After a successful send for `mid`, `mid` is visible in the store. -/
lemma process_message_success_mem (env : Env) (f : IdFile) (m : Message)
    (mid : String) (h : 0 < sendSuccessCount (process_message env f m).2 mid) :
    mid ∈ load_processed_ids (process_message env f m).1 := by
  rcases process_message_shape env f m with heq | heq | ⟨text, affEv, haff, -, hcase⟩
  · rw [heq] at h ⊢; simp [sendSuccessCount] at h
  · rw [heq] at h ⊢; simp [sendSuccessCount, List.countP_cons] at h
  · rcases hcase with ⟨-, heq⟩ | ⟨-, heq⟩ <;> rw [heq] at h ⊢
    · have : toString m.message_id = mid ∨ toString m.message_id ≠ mid :=
        em _
      rcases this with hm | hm
      · rw [← hm]; exact mem_load_save f m.message_id
      · exfalso
        have hne : (toString m.message_id == mid) = false :=
          beq_eq_false_iff_ne.mpr hm
        rcases haff with rfl | ⟨url, rfl⟩ <;>
          simp [sendSuccessCount, List.countP_cons, List.countP_append, hne] at h
    · exfalso
      rcases haff with rfl | ⟨url, rfl⟩ <;>
        simp [sendSuccessCount, List.countP_cons, List.countP_append] at h

/-- Running a batch splits at any point: the tail is processed from the
store state the head left behind, and the traces concatenate. -/
lemma runUpdates_append (env : Env) (f : IdFile) (A B : List (Option Message)) :
    runUpdates env f (A ++ B) =
      ((runUpdates env (runUpdates env f A).1 B).1,
       (runUpdates env f A).2 ++ (runUpdates env (runUpdates env f A).1 B).2) := by
  induction A generalizing f with
  | nil => simp [runUpdates]
  | cons u rest ih =>
    cases u with
    | none => simp only [List.cons_append, runUpdates]; exact ih f
    | some m =>
      by_cases hc : toString m.chat_id = env.source
      · simp only [List.cons_append, runUpdates, hc, if_pos, List.append_eq]
        rw [ih (process_message env f m).1]
        simp
      · simp only [List.cons_append, runUpdates, hc, if_neg, not_false_iff]
        exact ih f

/-- The visible store only grows across a run. -/
lemma runUpdates_mono (env : Env) (f : IdFile) (us : List (Option Message)) :
    load_processed_ids f ⊆ load_processed_ids (runUpdates env f us).1 := by
  induction us generalizing f with
  | nil => exact fun a ha => ha
  | cons u rest ih =>
    cases u with
    | none => exact ih f
    | some m =>
      by_cases hc : toString m.chat_id = env.source
      · simp only [runUpdates, hc, if_pos]
        exact fun a ha => ih (process_message env f m).1 (process_message_mono env f m ha)
      · simp only [runUpdates, hc, if_neg, not_false_iff]
        exact ih f

/-- An id already visible in the store is never successfully published
again during the run. -/
lemma runUpdates_success_count_mem (env : Env) (f : IdFile)
    (us : List (Option Message)) (mid : String)
    (h : mid ∈ load_processed_ids f) :
    sendSuccessCount (runUpdates env f us).2 mid = 0 := by
  induction us generalizing f with
  | nil => rfl
  | cons u rest ih =>
    cases u with
    | none => exact ih f h
    | some m =>
      by_cases hc : toString m.chat_id = env.source
      · simp only [runUpdates, hc, if_pos]
        have h1 := process_message_success_count env f m mid h
        have h2 := ih (process_message env f m).1 (process_message_mono env f m h)
        simp only [sendSuccessCount, List.countP_append] at *
        omega
      · simp only [runUpdates, hc, if_neg, not_false_iff]
        exact ih f h

/-- At most one successful publish per id within a run. -/
lemma runUpdates_success_le_one (env : Env) (f : IdFile)
    (us : List (Option Message)) (mid : String) :
    sendSuccessCount (runUpdates env f us).2 mid ≤ 1 := by
  induction us generalizing f with
  | nil => exact Nat.zero_le 1
  | cons u rest ih =>
    cases u with
    | none => exact ih f
    | some m =>
      by_cases hc : toString m.chat_id = env.source
      · simp only [runUpdates, hc, if_pos]
        rcases Nat.eq_zero_or_pos (sendSuccessCount (process_message env f m).2 mid)
          with hz | hp
        · have h2 := ih (process_message env f m).1
          simp only [sendSuccessCount, List.countP_append] at *
          omega
        · have h1 := process_message_success_le_one env f m mid
          have h2 := runUpdates_success_count_mem env (process_message env f m).1 rest
            mid (process_message_success_mem env f m mid hp)
          simp only [sendSuccessCount, List.countP_append] at *
          omega
      · simp only [runUpdates, hc, if_neg, not_false_iff]
        exact ih f

lemma sentAfter_cons_other (sent : List String) (e : Event) (evs : List Event)
    (h : ∀ id txt, e ≠ .sendAttempt id txt true) :
    sentAfter sent (e :: evs) = sentAfter sent evs := by
  cases e with
  | sendAttempt id txt ok =>
    cases ok with
    | true => exact absurd rfl (h id txt)
    | false => rfl
  | storeRead => rfl
  | affiliateCall url => rfl
  | storeWrite id => rfl

/-- Predicate `wellOrdered` splits across concatenation. -/
lemma wellOrdered_append (sent : List String) (A B : List Event) :
    wellOrdered sent (A ++ B)
      = (wellOrdered sent A && wellOrdered (sentAfter sent A) B) := by
  induction A generalizing sent with
  | nil => simp [wellOrdered, sentAfter]
  | cons e rest ih =>
    cases e with
    | storeRead => simpa [wellOrdered, sentAfter] using ih sent
    | affiliateCall url => simpa [wellOrdered, sentAfter] using ih sent
    | storeWrite id =>
      simp [wellOrdered, sentAfter, ih, Bool.and_assoc]
    | sendAttempt id txt ok =>
      cases ok with
      | true => simpa [wellOrdered, sentAfter] using ih (id :: sent)
      | false => simpa [wellOrdered, sentAfter] using ih sent

/-- Within one candidate, a store write happens only after that
candidate's own successful send. -/
lemma process_message_wellOrdered (env : Env) (f : IdFile) (m : Message)
    (sent : List String) :
    wellOrdered sent (process_message env f m).2 = true := by
  rcases process_message_shape env f m with heq | heq | ⟨text, affEv, haff, -, hcase⟩
  · rw [heq]; rfl
  · rw [heq]; rfl
  · rcases hcase with ⟨-, heq⟩ | ⟨-, heq⟩ <;> rw [heq] <;>
      rcases haff with rfl | ⟨url, rfl⟩ <;>
      simp [wellOrdered, List.contains_cons]

/-- Every store write in a run's trace is preceded by the successful send
of the same id. -/
lemma runUpdates_wellOrdered (env : Env) (f : IdFile)
    (us : List (Option Message)) (sent : List String) :
    wellOrdered sent (runUpdates env f us).2 = true := by
  induction us generalizing f sent with
  | nil => rfl
  | cons u rest ih =>
    cases u with
    | none => exact ih f sent
    | some m =>
      by_cases hc : toString m.chat_id = env.source
      · simp only [runUpdates, hc, if_pos]
        rw [wellOrdered_append, process_message_wellOrdered env f m sent, ih]
        rfl
      · simp only [runUpdates, hc, if_neg, not_false_iff]
        exact ih f sent

/-- A candidate whose id is already visible in the store is never
published: `process_message` stops at the duplicate check (or earlier, on
empty text). -/
lemma process_message_mem (env : Env) (f : IdFile) (m : Message)
    (h : toString m.message_id ∈ load_processed_ids f) :
    process_message env f m = (f, [])
    ∨ process_message env f m = (f, [.storeRead]) := by
  rcases process_message_shape env f m with heq | heq | ⟨text, affEv, -, hnot, -⟩
  · exact Or.inl heq
  · exact Or.inr heq
  · exact absurd h hnot

/-! ## Concrete fixtures (used by witnesses and counterexamples) -/

/-- An environment whose outbound send always fails and whose affiliate
endpoint is unset; source chat `-100`. -/
def envW : Env :=
  ⟨none, fun _ => HttpOutcome.transportError, fun _ => false, "-100", "-200"⟩

/-- An environment whose outbound send always succeeds. -/
def envOk : Env :=
  ⟨none, fun _ => HttpOutcome.transportError, fun _ => true, "-100", "-200"⟩

/-- A plain text message from the source chat. -/
def mW : Message := ⟨42, some "hello", -100⟩

/-! ## Claim theorems -/

/-- C1: for every candidate message whose outbound send fails (the
transport raises `TelegramError` during `bot.send_message`), the message's
id is not added to the dedup store for that candidate: the file state is
returned unchanged and the trace contains no store write, because
`save_processed_id` is reached only after `send_message` returns
(`src/bot.py:112-122`). -/
theorem publish_failure_leaves_store_unchanged (env : Env) (f : IdFile)
    (m : Message) (h : env.sendOk m = false) :
    (process_message env f m).1 = f ∧
    (process_message env f m).2.countP isWriteEvent = 0 :=
  process_message_send_fail env f m h

/-- Witness for C1 at a concrete candidate whose send fails. -/
theorem publish_failure_leaves_store_unchanged_witness :
    (process_message envW (some ["1"]) mW).1 = some ["1"] ∧
    (process_message envW (some ["1"]) mW).2.countP isWriteEvent = 0 :=
  publish_failure_leaves_store_unchanged envW (some ["1"]) mW rfl

/-- C2 counterexample: the claim says any non-success HTTP status falls
back to the original link, but `raise_for_status` raises only for
4xx/5xx, so a redirect-class response (here status 304) whose body carries
`affiliate_link` is treated as success and its field value is returned
instead of the original link. -/
theorem resolver_redirect_status_counterexample :
    get_affiliate_link (some "https://aff.example/api")
        (fun _ => .response 304 [("affiliate_link", "https://aff.example/x")])
        "https://orig.example/item"
      = "https://aff.example/x" ∧
    "https://aff.example/x" ≠ "https://orig.example/item" := by
  exact ⟨rfl, by decide⟩

/-- C2 (amended): `get_affiliate_link` is total and returns, for every
input link: the original link when no endpoint is configured; the original
link on transport failure, on an HTTP **error status (4xx/5xx, the statuses
`raise_for_status` raises for)**, or when the body lacks the
`affiliate_link` field; and the field's value on a response whose status
is not an error status and whose body contains the field. -/
theorem resolver_total_fallback (http : String → HttpOutcome) (L : String) :
    (get_affiliate_link none http L = L)
    ∧ (∀ E, http L = .transportError → get_affiliate_link (some E) http L = L)
    ∧ (∀ E s body, http L = .response s body → 400 ≤ s → s < 600 →
        get_affiliate_link (some E) http L = L)
    ∧ (∀ E s body, http L = .response s body → ¬(400 ≤ s ∧ s < 600) →
        body.lookup "affiliate_link" = none →
        get_affiliate_link (some E) http L = L)
    ∧ (∀ E s body a, http L = .response s body → ¬(400 ≤ s ∧ s < 600) →
        body.lookup "affiliate_link" = some a →
        get_affiliate_link (some E) http L = a) := by
  refine ⟨rfl, ?_, ?_, ?_, ?_⟩
  · intro E h
    simp [get_affiliate_link, h]
  · intro E s body h h4 h6
    unfold get_affiliate_link
    rw [h]
    dsimp only
    rw [if_pos ⟨h4, h6⟩]
  · intro E s body h hns hlook
    simp [get_affiliate_link, h, if_neg hns, hlook]
  · intro E s body a h hns hlook
    simp [get_affiliate_link, h, if_neg hns, hlook]

/-- Witness for C2 (amended) at concrete inputs: a 200 response with the
field returns the field's value; a transport error returns the original. -/
theorem resolver_total_fallback_witness :
    get_affiliate_link (some "E")
        (fun _ => .response 200 [("affiliate_link", "https://aff.example/x")])
        "https://orig.example/item" = "https://aff.example/x" ∧
    get_affiliate_link (some "E") (fun _ => .transportError)
        "https://orig.example/item" = "https://orig.example/item" :=
  ⟨(resolver_total_fallback
      (fun _ => .response 200 [("affiliate_link", "https://aff.example/x")])
      "https://orig.example/item").2.2.2.2 "E" 200
      [("affiliate_link", "https://aff.example/x")] "https://aff.example/x"
      rfl (by decide) rfl,
   (resolver_total_fallback (fun _ => .transportError)
      "https://orig.example/item").2.1 "E" rfl⟩

/-- C8: loading the dedup store when `processed_message_ids.txt` does not
exist returns the empty set (`FileNotFoundError` is caught,
`src/bot.py:40-41`), so no id is considered already processed on a first
run. -/
theorem missing_store_file_loads_empty :
    load_processed_ids none = [] ∧
    ∀ mid : String, (load_processed_ids none).contains mid = false :=
  ⟨rfl, fun _ => rfl⟩

/-- C10: a candidate whose text is absent (`None`) or empty returns before
the store read at `src/bot.py:83`: the file state is unchanged and the
trace is empty — no store read, no affiliate call, no send, no store
write. -/
theorem empty_text_no_side_effects (env : Env) (f : IdFile) (m : Message)
    (h : m.text = none ∨ m.text = some "") :
    process_message env f m = (f, []) :=
  process_message_empty_text env f m h

/-- Witness for C10 at a concrete text-less message. -/
theorem empty_text_no_side_effects_witness :
    process_message envOk (some ["1"]) ⟨7, none, -100⟩ = (some ["1"], []) :=
  empty_text_no_side_effects envOk (some ["1"]) ⟨7, none, -100⟩ (Or.inl rfl)

/-- C4: running the pipeline on a batch in which every message id is
already present in the dedup store leaves the store exactly as it was and
performs zero outbound send attempts and zero store writes
(`src/bot.py:83-86`). -/
theorem rerun_on_processed_batch_idempotent (env : Env) (f : IdFile)
    (us : List (Option Message))
    (h : ∀ u ∈ us, ∀ m : Message, u = some m →
      toString m.message_id ∈ load_processed_ids f) :
    (runUpdates env f us).1 = f
    ∧ (runUpdates env f us).2.countP isSendEvent = 0
    ∧ (runUpdates env f us).2.countP isWriteEvent = 0 := by
  induction us with
  | nil => exact ⟨rfl, rfl, rfl⟩
  | cons u rest ih =>
    have hrest := ih (fun u hu m hm => h u (List.mem_cons_of_mem _ hu) m hm)
    cases u with
    | none => simpa [runUpdates] using hrest
    | some m =>
      by_cases hc : toString m.chat_id = env.source
      · simp only [runUpdates, hc, if_pos]
        have hmem := h (some m) (List.mem_cons_self _ _) m rfl
        rcases process_message_mem env f m hmem with heq | heq <;>
          rw [heq] <;>
          simpa [List.countP_cons, isSendEvent, isWriteEvent] using hrest
      · simp only [runUpdates, hc, if_neg, not_false_iff]
        exact hrest

/-- Witness for C4: a batch consisting of one already-processed message. -/
theorem rerun_on_processed_batch_idempotent_witness :
    (runUpdates envOk (some ["42"]) [some ⟨42, some "x", -100⟩]).1 = some ["42"]
    ∧ (runUpdates envOk (some ["42"])
        [some ⟨42, some "x", -100⟩]).2.countP isSendEvent = 0
    ∧ (runUpdates envOk (some ["42"])
        [some ⟨42, some "x", -100⟩]).2.countP isWriteEvent = 0 := by
  refine rerun_on_processed_batch_idempotent envOk (some ["42"])
    [some ⟨42, some "x", -100⟩] ?_
  intro u hu m hm
  rcases List.mem_singleton.mp hu with rfl
  cases hm
  decide

/-- C5: the processed-id set grows monotonically — every id visible before
the run is visible after it (there is no removal operation,
`save_processed_id` only appends) — and every store write in the run's
trace is preceded by the successful delivery of the same id
(`save_processed_id` is called only after `bot.send_message` returned,
`src/bot.py:112-121`). -/
theorem store_monotone_write_after_success (env : Env) (f : IdFile)
    (us : List (Option Message)) :
    load_processed_ids f ⊆ load_processed_ids (runUpdates env f us).1
    ∧ wellOrdered [] (runUpdates env f us).2 = true :=
  ⟨runUpdates_mono env f us, runUpdates_wellOrdered env f us []⟩

/-- Witness for C5: a pre-existing id survives a concrete run, whose trace
is well ordered. -/
theorem store_monotone_write_after_success_witness :
    "7" ∈ load_processed_ids (runUpdates envOk (some ["7"]) [some mW]).1
    ∧ wellOrdered [] (runUpdates envOk (some ["7"]) [some mW]).2 = true :=
  ⟨(store_monotone_write_after_success envOk (some ["7"]) [some mW]).1
      (by decide),
   (store_monotone_write_after_success envOk (some ["7"]) [some mW]).2⟩

/-- C7: candidates are processed independently and sequentially — a
candidate `m` whose publish fails leaves the store unchanged, so the run
on `us1 ++ [m] ++ us2` processes every candidate of `us2` exactly as the
run on `us1 ++ us2` would, with `m` contributing only its own failed
trace (`src/bot.py:156-159` has no early exit; the `TelegramError` is
caught inside `process_message`, `src/bot.py:121-122`). -/
theorem candidate_failure_does_not_block (env : Env) (f : IdFile)
    (us1 us2 : List (Option Message)) (m : Message)
    (hfail : env.sendOk m = false) (hsrc : toString m.chat_id = env.source) :
    runUpdates env f (us1 ++ some m :: us2)
      = ((runUpdates env (runUpdates env f us1).1 us2).1,
         (runUpdates env f us1).2
           ++ (process_message env (runUpdates env f us1).1 m).2
           ++ (runUpdates env (runUpdates env f us1).1 us2).2) := by
  rw [runUpdates_append]
  have hstep : runUpdates env (runUpdates env f us1).1 (some m :: us2)
      = ((runUpdates env (runUpdates env f us1).1 us2).1,
         (process_message env (runUpdates env f us1).1 m).2
           ++ (runUpdates env (runUpdates env f us1).1 us2).2) := by
    simp only [runUpdates, hsrc, if_pos]
    rw [(process_message_send_fail env (runUpdates env f us1).1 m hfail).1]
  rw [hstep]
  simp [List.append_assoc]

/-- Witness for C7 with a failing candidate between two processed ones. -/
theorem candidate_failure_does_not_block_witness :
    runUpdates envW (some ["1"]) ([some ⟨1, some "a", -100⟩]
        ++ some mW :: [some ⟨2, some "b", -100⟩])
      = ((runUpdates envW
            (runUpdates envW (some ["1"]) [some ⟨1, some "a", -100⟩]).1
            [some ⟨2, some "b", -100⟩]).1,
         (runUpdates envW (some ["1"]) [some ⟨1, some "a", -100⟩]).2
           ++ (process_message envW
                 (runUpdates envW (some ["1"]) [some ⟨1, some "a", -100⟩]).1
                 mW).2
           ++ (runUpdates envW
                 (runUpdates envW (some ["1"]) [some ⟨1, some "a", -100⟩]).1
                 [some ⟨2, some "b", -100⟩]).2) :=
  candidate_failure_does_not_block envW (some ["1"])
    [some ⟨1, some "a", -100⟩] [some ⟨2, some "b", -100⟩] mW rfl rfl

/-- C9: within a single run at most one successful publish occurs per
message id, even when the same id appears several times in the batch: the
store is re-read (`load_processed_ids`, `src/bot.py:83`) before each
candidate, and a successful publish appends the id
(`src/bot.py:120`) so every later occurrence is skipped. -/
theorem at_most_one_publish_per_id (env : Env) (f : IdFile)
    (us : List (Option Message)) (mid : String) :
    sendSuccessCount (runUpdates env f us).2 mid ≤ 1 :=
  runUpdates_success_le_one env f us mid

/-- Does `needle` occur as a contiguous run at the head of the second
list? -/
def startsWithChars : List Char → List Char → Bool
  | _, [] => true
  | [], _ :: _ => false
  | c :: cs, p :: ps => c == p && startsWithChars cs ps

/-- Does `needle` occur as a contiguous run anywhere in `hay`? -/
def containsSub (needle : List Char) : List Char → Bool
  | [] => startsWithChars [] needle
  | c :: cs => startsWithChars (c :: cs) needle || containsSub needle cs

/-- The spec's §8 example message in its actual Unicode encoding: emoji
markers (📦 U+1F4E6, 💰 U+1F4B0, 🔗 U+1F517), the real rupee sign
(₹ U+20B9) and the real arrow (→ U+2192), containing exactly the three
substrings `Product: Wireless Mouse`, `Price: ₹1,999 → ₹999` and
`Link: https://example.com/item`. -/
def specExampleText : String :=
  String.mk ([Char.ofNat 0x1F4E6] ++ " Product: Wireless Mouse\n".data
    ++ [Char.ofNat 0x1F4B0] ++ " Price: ".data ++ [Char.ofNat 0x20B9]
    ++ "1,999 ".data ++ [Char.ofNat 0x2192] ++ " ".data ++ [Char.ofNat 0x20B9]
    ++ "999\n".data ++ [Char.ofNat 0x1F517]
    ++ " Link: https://example.com/item".data)

/-- The same deal content re-encoded the way the source's regex demands:
cp1252-mojibake markers and currency/arrow sequences, plus a detail line
starting with the `ðŸ’¡` marker between the product and price lines —
the pattern structurally needs one: its alternation `(?:\nðŸ’¡|\nðŸ’°)`
consumes one marker after the product name and the price section then
requires a further literal `ðŸ’°`. -/
def mojibakeExampleText : String :=
  String.mk (prodMark ++ " Product: Wireless Mouse\n".data
    ++ bulbMark ++ " 50% off\n".data
    ++ moneyMark ++ " Price: ".data ++ rupeeLit ++ "1,999 ".data
    ++ arrowLit ++ " ".data ++ rupeeLit ++ "999\n".data
    ++ "Link: https://example.com/item".data)

/-- C3 (documents the code defect): on the spec's example input —
containing `Product: Wireless Mouse`, `Price: ₹1,999 → ₹999` and
`Link: https://example.com/item` with the markers in valid order —
`parse` returns NoMatch instead of the claimed ParsedDeal, because
`message_regex`'s literals are the cp1252 mojibake of the emoji, rupee
sign and arrow (so they never match properly encoded text) and the
pattern additionally requires a second `ðŸ’¡`/`ðŸ’°` marker line.  The
second conjunct shows the claimed field extraction does work on the
mojibake re-encoding with a detail line, locating the defect in the
pattern's encoding, not in the capture/trim logic. -/
theorem parse_spec_example_nomatch :
    parse specExampleText = none
    ∧ parse mojibakeExampleText
        = some ⟨"Wireless Mouse", "1,999", "999", "https://example.com/item"⟩ := by
  exact ⟨by decide, by decide⟩

/-- A parseable (mojibake) message whose product name contains a Markdown
emphasis marker. -/
def mojibakeStarText : String :=
  String.mk (prodMark ++ " Product: Wireless * Mouse\n".data
    ++ bulbMark ++ " 50% off\n".data
    ++ moneyMark ++ " Price: ".data ++ rupeeLit ++ "1,999 ".data
    ++ arrowLit ++ " ".data ++ rupeeLit ++ "999\n".data
    ++ "Link: https://example.com/item".data)

/-- The ParsedDeal the code extracts from `mojibakeStarText`. -/
def dealStar : ParsedDeal :=
  ⟨"Wireless * Mouse", "1,999", "999", "https://example.com/item"⟩

/-- C6 (documents the code defect the spec flags as latent): a reachable
ParsedDeal whose product name contains `*` — special in the transport's
Markdown parse mode — is interpolated verbatim into `final_message`
(`src/bot.py:105-109`): the raw value appears as a substring of the
output and the output contains no escape character (`\`) at all, so the
special character is unescaped inside the interpolated value. -/
theorem formatter_unescaped_interpolation :
    parse mojibakeStarText = some dealStar
    ∧ containsSub "Wireless * Mouse".data
        (final_message "Wireless * Mouse" "1,999" "999"
          "https://example.com/item").data = true
    ∧ (final_message "Wireless * Mouse" "1,999" "999"
        "https://example.com/item").data.all (fun c => c != '\\') = true := by
  exact ⟨by decide, by decide, by decide⟩

end Bot
